import Mathlib

/-
Verification of the validator orchestration core of snarkOS
(node/src/validator/mod.rs): the block-synchronization loop, the
ledger-advancement procedure, the lifecycle/shutdown layer, and the
transaction-generation loop, shallowly embedded as pure Lean functions.
-/

namespace SnarkOS

/-- A block as seen by the validator orchestration layer: its height and its hash. -/
structure Block where
  height : Nat
  hash : Nat
deriving DecidableEq

/-- The data attached to a prepared block request, following the tuple
`(hash, previous_hash, sync_ips)` that `initialize_sync` passes to
`insert_block_request`. Hashes and peer addresses are abstracted as naturals. -/
structure ReqData where
  hash : Nat
  previous_hash : Nat
  sync_ips : List Nat
deriving DecidableEq

/-- Modelled from the spec: the SyncPool collaborator (external, contract in section 6),
tracking in-flight block requests, queued block responses, and canon locators. -/
structure SyncPool where
  requests : List (Nat × ReqData)
  responses : List (Nat × Block)
  canonLocators : List (Nat × Nat)
deriving DecidableEq

/-- Modelled from the spec: `insert_block_request(height, data) -> Result<(), AlreadyInFlight>`;
registration fails (returns `none`) exactly when a request for that height is already
in flight, enforcing the at-most-one-in-flight invariant. -/
def insert_block_request (height : Nat) (data : ReqData) (p : SyncPool) : Option SyncPool :=
  if p.requests.any (fun r => r.1 == height) then none
  else some { p with requests := p.requests ++ [(height, data)] }

/-- Modelled from the spec: `remove_block_request(height)` drops the in-flight entry
for the height. -/
def remove_block_request (height : Nat) (p : SyncPool) : SyncPool :=
  { p with requests := p.requests.filter (fun r => r.1 != height) }

/-- Helper for `remove_block_response`: pop the first queued response for the height,
returning the block and the remaining queue. -/
def popResponse (height : Nat) : List (Nat × Block) → Option (Block × List (Nat × Block))
  | [] => none
  | (h, b) :: rest =>
    if h == height then some (b, rest)
    else
      match popResponse height rest with
      | none => none
      | some (b2, rest2) => some (b2, (h, b) :: rest2)

/-- Modelled from the spec: `remove_block_response(height) -> Option<Block>`, returned
together with the pool in which that response has been consumed. -/
def remove_block_response (height : Nat) (p : SyncPool) : Option Block × SyncPool :=
  match popResponse height p.responses with
  | none => (none, p)
  | some (b, rest) => (some b, { p with responses := rest })

/-- Modelled from the spec: `insert_canon_locator(height, hash)` records a confirmed
height-to-hash binding. -/
def insert_canon_locator (height hash : Nat) (p : SyncPool) : SyncPool :=
  { p with canonLocators := p.canonLocators ++ [(height, hash)] }

/-- The `Message::BlockRequest` constructed in `initialize_sync`:
`BlockRequest { start_height: height, end_height: height + 1 }`. -/
structure Message where
  start_height : Nat
  end_height : Nat
deriving DecidableEq

/-- An observable network action of the sync loop: a send attempt to a peer with its
outcome (`ok = false` is the `None` return of `Router::send`). -/
inductive Event where
  | send (peer : Nat) (msg : Message) (ok : Bool)
deriving DecidableEq

/-- The per-peer send loop of `initialize_sync` (mod.rs lines 192 to 200): send the
message to each sync peer in order; on the first failed send, remove the entire block
request from the sync pool and signal the enclosing loop to break (the Bool result is
true exactly when the outer loop is aborted). `sendOk` gives the outcome
`Router::send` would report for a peer and message. -/
def sendToPeers (sendOk : Nat → Message → Bool) (height : Nat) (msg : Message)
    (peers : List Nat) (p : SyncPool) (trace : List Event) :
    SyncPool × List Event × Bool :=
  match peers with
  | [] => (p, trace, false)
  | ip :: rest =>
    if sendOk ip msg then
      sendToPeers sendOk height msg rest p (trace ++ [Event.send ip msg true])
    else
      (remove_block_request height p, trace ++ [Event.send ip msg false], true)

/-- The block-request processing loop of `initialize_sync` (mod.rs lines 181 to 204):
for each prepared request, try to register it in the sync pool; if registration
succeeds, send a `BlockRequest` message to each sync peer, where a send failure
removes the request and breaks out of the whole loop over requests. -/
def processRequests (sendOk : Nat → Message → Bool)
    (reqs : List (Nat × ReqData)) (p : SyncPool) (trace : List Event) :
    SyncPool × List Event :=
  match reqs with
  | [] => (p, trace)
  | (height, data) :: rest =>
    match insert_block_request height data p with
    | none => processRequests sendOk rest p trace
    | some p1 =>
      match sendToPeers sendOk height ⟨height, height + 1⟩ data.sync_ips p1 trace with
      | (p2, trace2, true) => (p2, trace2)
      | (p2, trace2, false) => processRequests sendOk rest p2 trace2

/-- The state visible to one iteration of the sync loop: the ledger height, the sync
pool, the shutdown flag, and the trace of network events so far. -/
structure NodeState where
  ledgerHeight : Nat
  pool : SyncPool
  shutdown : Bool
  trace : List Event
deriving DecidableEq

/-- One iteration of the sync-loop body spawned by `initialize_sync` (mod.rs lines 166
to 205): if the shutdown flag is set the loop breaks (the state is returned
unchanged); otherwise the prepared block requests (produced by the external
`prepare_block_requests`, hence a parameter) are processed. The body contains no call
to `advance_with_sync_blocks`. -/
def syncLoopIteration (sendOk : Nat → Message → Bool)
    (blockRequests : List (Nat × ReqData)) (s : NodeState) : NodeState :=
  if s.shutdown then s
  else
    match processRequests sendOk blockRequests s.pool s.trace with
    | (p, tr) => { s with pool := p, trace := tr }

/-- A record of one invocation of `advance_to_next_block`: the tracked current height
at the moment of the call, the block passed, and whether the call succeeded. -/
structure AdvanceCall where
  prevHeight : Nat
  block : Block
  ok : Bool
deriving DecidableEq

/-- The state manipulated by `advance_with_sync_blocks`: the tracked ledger height,
the sync pool, and the log of `advance_to_next_block` invocations. -/
structure AdvanceState where
  ledgerHeight : Nat
  pool : SyncPool
  calls : List AdvanceCall
deriving DecidableEq

/-- The while loop of `advance_with_sync_blocks` (mod.rs lines 215 to 235), with
explicit fuel bounding the number of pops (each successful pop consumes a queued
response, so the queue length bounds the iterations). `check` embeds the external
`Ledger::check_next_block` and `advance` the external `advance_to_next_block`; a
successful advance makes the tracked height equal the height of the committed
block, mirroring `current_height += 1`. -/
def advanceLoop (check advance : Block → Bool) : Nat → AdvanceState → AdvanceState
  | 0, s => s
  | fuel + 1, s =>
    match remove_block_response (s.ledgerHeight + 1) s.pool with
    | (none, _) => s
    | (some block, p1) =>
      let s1 : AdvanceState := { s with pool := p1 }
      if block.height != s1.ledgerHeight + 1 then s1
      else if !(check block) then s1
      else
        let s2 : AdvanceState :=
          { s1 with calls := s1.calls ++ [⟨s1.ledgerHeight, block, advance block⟩] }
        if !(advance block) then s2
        else
          let s3 : AdvanceState :=
            { s2 with
              pool := insert_canon_locator block.height block.hash s2.pool,
              ledgerHeight := s2.ledgerHeight + 1 }
          advanceLoop check advance fuel s3

/-- `advance_with_sync_blocks` (mod.rs lines 211 to 236): read the latest ledger
height and repeatedly pop the queued response for the next height, validating the
height, checking the block, advancing the ledger, and recording the canon locator,
until a pop fails or a validation step breaks the loop. -/
def advance_with_sync_blocks (check advance : Block → Bool) (s : AdvanceState) : AdvanceState :=
  advanceLoop check advance (s.pool.responses.length + 1) s

/-- A spawned background task handle (a `JoinHandle`), identified by a task id and
carrying whether it has been aborted. -/
structure TaskHandle where
  id : Nat
  aborted : Bool
deriving DecidableEq

/-- The observable teardown actions of `shut_down`, in the order they are performed. -/
inductive ShutEvent where
  | setShutdownFlag
  | abortTask (id : Nat)
  | routerShutDown
  | consensusShutDown
deriving DecidableEq

/-- The lifecycle state of the validator: the shutdown flag, the registered task
handles, and the trace of teardown actions. -/
structure LifecycleState where
  shutdown : Bool
  handles : List TaskHandle
  trace : List ShutEvent
deriving DecidableEq

/-- `Validator::spawn` (mod.rs lines 466 to 468): push a join handle for the newly
spawned task onto the handle registry. -/
def spawn (id : Nat) (s : LifecycleState) : LifecycleState :=
  { s with handles := s.handles ++ [⟨id, false⟩] }

/-- `Validator::shut_down` (mod.rs lines 474 to 493): store true into the shutdown
flag, abort every registered handle, shut down the router, then shut down consensus,
in that fixed order. -/
def shut_down (s : LifecycleState) : LifecycleState :=
  let s1 : LifecycleState :=
    { s with shutdown := true, trace := s.trace ++ [ShutEvent.setShutdownFlag] }
  let s2 : LifecycleState :=
    { s1 with
      handles := s1.handles.map (fun h => { h with aborted := true }),
      trace := s1.trace ++ s1.handles.map (fun h => ShutEvent.abortTask h.id) }
  let s3 : LifecycleState := { s2 with trace := s2.trace ++ [ShutEvent.routerShutDown] }
  { s3 with trace := s3.trace ++ [ShutEvent.consensusShutDown] }

/-- The observable actions of one cycle of the transaction-pool loop. -/
inductive TxEvent where
  | execAttempt
  | execErrorLogged
  | broadcastAttempt (tx : Nat)
  | broadcastLogged
deriving DecidableEq

/-- The body of a transaction-pool cycle past the development-mode gate (mod.rs lines
432 to 459): execute the transaction against the VM (`execOutcome` is the result the
VM returns this cycle, `none` meaning an execution error); on error, log it and
continue to the next cycle; on success, broadcast the transaction and log when the
broadcast reports success. The Bool result is true when the loop proceeds to the
next cycle (this loop has no break or return, so every path continues). -/
def transactionPoolBody (execOutcome : Option Nat) (broadcastOk : Nat → Bool) :
    List TxEvent × Bool :=
  match execOutcome with
  | none => ([TxEvent.execAttempt, TxEvent.execErrorLogged], true)
  | some tx =>
    if broadcastOk tx then
      ([TxEvent.execAttempt, TxEvent.broadcastAttempt tx, TxEvent.broadcastLogged], true)
    else
      ([TxEvent.execAttempt, TxEvent.broadcastAttempt tx], true)

/-- One cycle of the transaction-pool loop spawned by `initialize_transaction_pool`
(mod.rs lines 423 to 460): after the sleep, when running in development mode with a
nonzero index the cycle is skipped (`continue`); otherwise the body runs. -/
def transactionPoolIteration (dev : Option Nat) (execOutcome : Option Nat)
    (broadcastOk : Nat → Bool) : List TxEvent × Bool :=
  match dev with
  | some d => if d ≠ 0 then ([], true) else transactionPoolBody execOutcome broadcastOk
  | none => transactionPoolBody execOutcome broadcastOk

/-- A run of `n` cycles of the transaction-pool loop. `execEnv` and `bEnv` give the
VM execution outcome and the broadcast outcome for each cycle index. A cycle runs
only when every earlier cycle chose to continue; the Bool records whether the loop
is still running. -/
def transactionPoolRun (dev : Option Nat) (execEnv : Nat → Option Nat)
    (bEnv : Nat → Nat → Bool) : Nat → List TxEvent × Bool
  | 0 => ([], true)
  | n + 1 =>
    match transactionPoolRun dev execEnv bEnv n with
    | (evs, false) => (evs, false)
    | (evs, true) =>
      match transactionPoolIteration dev (execEnv n) (bEnv n) with
      | (evs2, c) => (evs ++ evs2, c)

/-! ## Helper lemmas -/

lemma insert_block_request_some {height : Nat} {data : ReqData} {p p1 : SyncPool}
    (h : insert_block_request height data p = some p1) :
    p.requests.any (fun r => r.1 == height) = false ∧
    p1 = { p with requests := p.requests ++ [(height, data)] } := by
  unfold insert_block_request at h
  by_cases hc : p.requests.any (fun r => r.1 == height) = true
  · rw [if_pos hc] at h
    exact absurd h (by simp)
  · rw [if_neg hc] at h
    rw [Bool.not_eq_true] at hc
    refine ⟨hc, ?_⟩
    simpa using h.symm

lemma remove_block_request_absent (height : Nat) (p : SyncPool) :
    ((remove_block_request height p).requests.all (fun r => r.1 != height)) = true := by
  simp only [remove_block_request, List.all_eq_true]
  intro x hx
  exact (List.mem_filter.mp hx).2

lemma sendToPeers_preserves (sendOk : Nat → Message → Bool) (height : Nat) (msg : Message) :
    ∀ (peers : List Nat) (p : SyncPool) (trace : List Event),
      ((sendToPeers sendOk height msg peers p trace).1).responses = p.responses ∧
      ((sendToPeers sendOk height msg peers p trace).1).canonLocators = p.canonLocators := by
  intro peers
  induction peers with
  | nil => intro p trace; exact ⟨rfl, rfl⟩
  | cons ip rest ih =>
    intro p trace
    by_cases hb : sendOk ip msg = true
    · simp only [sendToPeers, if_pos hb]
      exact ih p _
    · simp only [sendToPeers, if_neg hb]
      exact ⟨rfl, rfl⟩

lemma sendToPeers_abort_removes (sendOk : Nat → Message → Bool) (height : Nat) (msg : Message) :
    ∀ (peers : List Nat) (p : SyncPool) (trace : List Event),
      (sendToPeers sendOk height msg peers p trace).2.2 = true →
      ((sendToPeers sendOk height msg peers p trace).1.requests.all
        (fun r => r.1 != height)) = true := by
  intro peers
  induction peers with
  | nil => intro p trace h; exact absurd h (by simp [sendToPeers])
  | cons ip rest ih =>
    intro p trace h
    by_cases hb : sendOk ip msg = true
    · simp only [sendToPeers, if_pos hb] at h ⊢
      exact ih p _ h
    · simp only [sendToPeers, if_neg hb]
      exact remove_block_request_absent height p

lemma processRequests_preserves (sendOk : Nat → Message → Bool) :
    ∀ (reqs : List (Nat × ReqData)) (p : SyncPool) (trace : List Event),
      ((processRequests sendOk reqs p trace).1).responses = p.responses ∧
      ((processRequests sendOk reqs p trace).1).canonLocators = p.canonLocators := by
  intro reqs
  induction reqs with
  | nil => intro p trace; exact ⟨rfl, rfl⟩
  | cons r rest ih =>
    intro p trace
    obtain ⟨height, data⟩ := r
    rcases hins : insert_block_request height data p with _ | p1
    · simp only [processRequests, hins]
      exact ih p trace
    · obtain ⟨hany, hp1⟩ := insert_block_request_some hins
      have hfields : p1.responses = p.responses ∧ p1.canonLocators = p.canonLocators := by
        rw [hp1]; exact ⟨rfl, rfl⟩
      simp only [processRequests, hins]
      rcases hs : sendToPeers sendOk height ⟨height, height + 1⟩ data.sync_ips p1 trace
        with ⟨p2, tr2, b⟩
      have hsp := sendToPeers_preserves sendOk height ⟨height, height + 1⟩ data.sync_ips p1 trace
      rw [hs] at hsp
      cases b
      · have hrest := ih p2 tr2
        exact ⟨hrest.1.trans (hsp.1.trans hfields.1), hrest.2.trans (hsp.2.trans hfields.2)⟩
      · exact ⟨hsp.1.trans hfields.1, hsp.2.trans hfields.2⟩

lemma sendToPeers_first_failure (sendOk : Nat → Message → Bool) (height : Nat) (msg : Message)
    (pk : Nat) (post : List Nat) (hpk : sendOk pk msg = false) :
    ∀ (pre : List Nat) (p : SyncPool) (trace : List Event),
      (∀ q ∈ pre, sendOk q msg = true) →
      sendToPeers sendOk height msg (pre ++ pk :: post) p trace
        = (remove_block_request height p,
           trace ++ pre.map (fun q => Event.send q msg true) ++ [Event.send pk msg false],
           true) := by
  intro pre
  induction pre with
  | nil =>
    intro p trace _
    simp only [List.nil_append, List.map_nil, List.append_nil, sendToPeers]
    rw [if_neg (by simp [hpk])]
  | cons q rest ih =>
    intro p trace hpre
    have hq : sendOk q msg = true := hpre q (by simp)
    have hrest : ∀ x ∈ rest, sendOk x msg = true := fun x hx => hpre x (by simp [hx])
    have hih := ih p (trace ++ [Event.send q msg true]) hrest
    simp only [List.cons_append, sendToPeers, if_pos hq, List.append_eq]
    rw [hih]
    simp [List.append_assoc]

lemma remove_block_response_some {height : Nat} {p p1 : SyncPool} {b : Block}
    (h : remove_block_response height p = (some b, p1)) :
    ∃ rest, popResponse height p.responses = some (b, rest) ∧
      p1 = { p with responses := rest } := by
  unfold remove_block_response at h
  rcases hp : popResponse height p.responses with _ | ⟨b2, rest⟩
  · rw [hp] at h
    simp at h
  · rw [hp] at h
    simp only [Prod.mk.injEq, Option.some.injEq] at h
    obtain ⟨hb, hps⟩ := h
    exact ⟨rest, by rw [hb], hps.symm⟩

lemma advanceLoop_calls_spec (check advance : Block → Bool) :
    ∀ (fuel : Nat) (s : AdvanceState),
      ∃ new : List AdvanceCall,
        (advanceLoop check advance fuel s).calls = s.calls ++ new ∧
        (new.all (fun c => c.block.height == c.prevHeight + 1)) = true ∧
        (advanceLoop check advance fuel s).ledgerHeight
          = s.ledgerHeight + new.countP (fun c => c.ok) := by
  intro fuel
  induction fuel with
  | zero =>
    intro s
    exact ⟨[], by simp [advanceLoop], by simp, by simp [advanceLoop]⟩
  | succ fuel ih =>
    intro s
    simp only [advanceLoop]
    split
    · exact ⟨[], by simp, by simp, by simp⟩
    · rename_i block p1 heq
      by_cases hh : (block.height != s.ledgerHeight + 1) = true
      · rw [if_pos hh]
        exact ⟨[], by simp, by simp, by simp⟩
      · rw [if_neg hh]
        have hheq : (block.height == s.ledgerHeight + 1) = true := by
          simpa using hh
        by_cases hchk : (!(check block)) = true
        · rw [if_pos hchk]
          exact ⟨[], by simp, by simp, by simp⟩
        · rw [if_neg hchk]
          by_cases hadv : (!(advance block)) = true
          · rw [if_pos hadv]
            have hfalse : advance block = false := by simpa using hadv
            refine ⟨[⟨s.ledgerHeight, block, advance block⟩], by simp, ?_, ?_⟩
            · simpa using hheq
            · simp [hfalse, List.countP_cons]
          · rw [if_neg hadv]
            have htrue : advance block = true := by simpa using hadv
            obtain ⟨new, h1, h2, h3⟩ := ih
              { ledgerHeight := s.ledgerHeight + 1,
                pool := insert_canon_locator block.height block.hash p1,
                calls := s.calls ++ [⟨s.ledgerHeight, block, advance block⟩] }
            refine ⟨⟨s.ledgerHeight, block, advance block⟩ :: new, ?_, ?_, ?_⟩
            · rw [h1]; simp
            · simp only [List.all_cons, h2, Bool.and_true]
              simpa using hheq
            · rw [h3]
              simp [htrue, List.countP_cons]
              omega

lemma spawn_foldl (ids : List Nat) : ∀ (s : LifecycleState),
    (ids.foldl (fun st i => spawn i st) s)
      = { s with handles := s.handles ++ ids.map (fun i => TaskHandle.mk i false) } := by
  induction ids with
  | nil => intro s; simp
  | cons i rest ih =>
    intro s
    simp only [List.foldl_cons, List.map_cons]
    rw [ih (spawn i s)]
    simp [spawn]

/-! ## Claim theorems -/

/-- C1 (counterexample): the claim states that every non-shutdown iteration of the
synchronization loop attempts ledger advancement after processing the pending block
requests, popping a matching BlockResponse for latest_height+1. At the concrete state
with the ledger at height 10, the shutdown flag clear, and a queued response for
height 11, one loop iteration leaves the state entirely unchanged: the queued
response is not popped and the ledger does not advance, so the loop performs no
advancement attempt. -/
theorem sync_loop_iteration_ignores_pending_response :
    (NodeState.mk 10 ⟨[], [(11, ⟨11, 99⟩)], []⟩ false []).shutdown = false ∧
    popResponse (10 + 1) (NodeState.mk 10 ⟨[], [(11, ⟨11, 99⟩)], []⟩ false []).pool.responses
      = some (⟨11, 99⟩, []) ∧
    syncLoopIteration (fun _ _ => true) [] (NodeState.mk 10 ⟨[], [(11, ⟨11, 99⟩)], []⟩ false [])
      = NodeState.mk 10 ⟨[], [(11, ⟨11, 99⟩)], []⟩ false [] := by
  exact ⟨rfl, rfl, rfl⟩

/-- C1 (amended): the synchronization loop body never attempts ledger advancement;
each iteration only registers and dispatches block requests, leaving the ledger
height, the queued block responses, and the canon locators unchanged. Ledger
advancement is implemented in the separate advance_with_sync_blocks procedure, which
the loop does not invoke. -/
theorem sync_loop_iteration_no_advancement (sendOk : Nat → Message → Bool)
    (blockRequests : List (Nat × ReqData)) (s : NodeState) :
    (syncLoopIteration sendOk blockRequests s).ledgerHeight = s.ledgerHeight ∧
    (syncLoopIteration sendOk blockRequests s).pool.responses = s.pool.responses ∧
    (syncLoopIteration sendOk blockRequests s).pool.canonLocators = s.pool.canonLocators := by
  unfold syncLoopIteration
  by_cases hs : s.shutdown = true
  · rw [if_pos hs]
    exact ⟨rfl, rfl, rfl⟩
  · rw [if_neg hs]
    rcases hp : processRequests sendOk blockRequests s.pool s.trace with ⟨p, tr⟩
    have hpres := processRequests_preserves sendOk blockRequests s.pool s.trace
    rw [hp] at hpres
    exact ⟨rfl, hpres.1, hpres.2⟩

/-- C5: greedy, strictly contiguous advancement. With the ledger at height 10 and the
sync pool holding a valid response for height 11 together with a response for height
13 (and none for height 12), one call of advance_with_sync_blocks commits exactly
height 11, records one successful advance_to_next_block call for the block of height
11, inserts the canon locator (11, hash11), and leaves the response for height 13
queued: advancement does not pass height 11. -/
theorem greedy_contiguous_advancement_scenario (hash11 hash13 : Nat) :
    advance_with_sync_blocks (fun _ => true) (fun _ => true)
        ⟨10, ⟨[], [(11, ⟨11, hash11⟩), (13, ⟨13, hash13⟩)], []⟩, []⟩
      = ⟨11, ⟨[], [(13, ⟨13, hash13⟩)], [(11, hash11)]⟩, [⟨10, ⟨11, hash11⟩, true⟩]⟩ := by
  rfl

/-- C6: after shut_down returns, the shutdown flag reads true and every previously
spawned task handle has been aborted; the teardown trace is exactly, in order: set
the shutdown flag, abort every registered handle, shut down the router, shut down
consensus. Stated for a node that spawned an arbitrary list of tasks on top of an
arbitrary prior lifecycle state. -/
theorem shut_down_completeness_and_order (ids : List Nat) (s : LifecycleState) :
    (shut_down (ids.foldl (fun st i => spawn i st) s)).shutdown = true ∧
    ((shut_down (ids.foldl (fun st i => spawn i st) s)).handles.all (fun h => h.aborted)) = true ∧
    (shut_down (ids.foldl (fun st i => spawn i st) s)).handles
      = (s.handles ++ ids.map (fun i => TaskHandle.mk i false)).map (fun h => ⟨h.id, true⟩) ∧
    (shut_down (ids.foldl (fun st i => spawn i st) s)).trace
      = s.trace ++ [ShutEvent.setShutdownFlag]
          ++ (s.handles ++ ids.map (fun i => TaskHandle.mk i false)).map
              (fun h => ShutEvent.abortTask h.id)
          ++ [ShutEvent.routerShutDown, ShutEvent.consensusShutDown] := by
  rw [spawn_foldl]
  refine ⟨rfl, ?_, rfl, ?_⟩
  · simp [shut_down, List.all_eq_true]
  · simp [shut_down, List.append_assoc]

/-- C2: for a block request for a height with peer list pre ++ pk :: post, if the
sends to the peers in pre succeed and the send to pk fails, then the send loop
removes the in-flight entry for that height from the sync pool (no entry for the
height remains), the only send attempts are those to pre and the failed one to pk
(none to any peer in post), and the outer loop is aborted. -/
theorem send_failure_removes_request_and_stops_sends
    (sendOk : Nat → Message → Bool) (height : Nat) (msg : Message)
    (pre : List Nat) (pk : Nat) (post : List Nat) (p : SyncPool) (trace : List Event)
    (hpre : ∀ q ∈ pre, sendOk q msg = true) (hpk : sendOk pk msg = false) :
    sendToPeers sendOk height msg (pre ++ pk :: post) p trace
      = (remove_block_request height p,
         trace ++ pre.map (fun q => Event.send q msg true) ++ [Event.send pk msg false],
         true) ∧
    ((remove_block_request height p).requests.all (fun r => r.1 != height)) = true := by
  exact ⟨sendToPeers_first_failure sendOk height msg pk post hpk pre p trace hpre,
    remove_block_request_absent height p⟩

/-- C2 witness: with peers [1] ++ 2 :: [3] for height 20, where the send to peer 1
succeeds and the send to peer 2 fails, the request for height 20 is removed, only
peers 1 and 2 are attempted, and the loop aborts. -/
theorem send_failure_removes_request_and_stops_sends_witness :
    sendToPeers (fun q _ => q != 2) 20 ⟨20, 21⟩ ([1] ++ 2 :: [3])
        ⟨[(20, ⟨5, 4, [1, 2, 3]⟩)], [], []⟩ []
      = (remove_block_request 20 ⟨[(20, ⟨5, 4, [1, 2, 3]⟩)], [], []⟩,
         [] ++ [1].map (fun q => Event.send q ⟨20, 21⟩ true) ++ [Event.send 2 ⟨20, 21⟩ false],
         true) ∧
    ((remove_block_request 20 (⟨[(20, ⟨5, 4, [1, 2, 3]⟩)], [], []⟩ : SyncPool)).requests.all
        (fun r => r.1 != 20)) = true :=
  send_failure_removes_request_and_stops_sends (fun q _ => q != 2) 20 ⟨20, 21⟩
    [1] 2 [3] ⟨[(20, ⟨5, 4, [1, 2, 3]⟩)], [], []⟩ [] (by decide) (by decide)

/-- C9: within one cycle, a send failure for one request aborts dispatch for the
entire cycle. If the request for some height registers successfully but its send
loop aborts, then the processing of the whole request list stops at that request:
the cycle result equals the send-loop result and is entirely independent of the
remaining requests (so none of them is registered or sent), and the aborted height
is absent from the in-flight requests afterwards. -/
theorem send_failure_aborts_entire_cycle
    (sendOk : Nat → Message → Bool) (height : Nat) (data : ReqData)
    (rest rest2 : List (Nat × ReqData)) (p p1 : SyncPool) (trace : List Event)
    (hins : insert_block_request height data p = some p1)
    (habort : (sendToPeers sendOk height ⟨height, height + 1⟩ data.sync_ips p1 trace).2.2
      = true) :
    processRequests sendOk ((height, data) :: rest) p trace
      = ((sendToPeers sendOk height ⟨height, height + 1⟩ data.sync_ips p1 trace).1,
         (sendToPeers sendOk height ⟨height, height + 1⟩ data.sync_ips p1 trace).2.1) ∧
    processRequests sendOk ((height, data) :: rest) p trace
      = processRequests sendOk ((height, data) :: rest2) p trace ∧
    ((processRequests sendOk ((height, data) :: rest) p trace).1.requests.all
        (fun r => r.1 != height)) = true := by
  have hrem := sendToPeers_abort_removes sendOk height ⟨height, height + 1⟩
    data.sync_ips p1 trace habort
  rcases hs : sendToPeers sendOk height ⟨height, height + 1⟩ data.sync_ips p1 trace
    with ⟨p2, tr2, b⟩
  rw [hs] at habort hrem
  have hb : b = true := habort
  subst hb
  have hcycle : ∀ others : List (Nat × ReqData),
      processRequests sendOk ((height, data) :: others) p trace = (p2, tr2) := by
    intro others
    simp only [processRequests, hins, hs]
  rw [hcycle rest, hcycle rest2]
  exact ⟨rfl, rfl, hrem⟩

/-- C9 witness: with every send failing, a cycle holding requests for heights 20 and
21 aborts at height 20: the result is that of the send loop for height 20, matches
the result with the height-21 request absent, and height 20 is not in flight. -/
theorem send_failure_aborts_entire_cycle_witness :
    processRequests (fun _ _ => false) [(20, ⟨5, 4, [7]⟩), (21, ⟨6, 5, [7]⟩)]
        ⟨[], [], []⟩ []
      = ((sendToPeers (fun _ _ => false) 20 ⟨20, 20 + 1⟩ (ReqData.mk 5 4 [7]).sync_ips
            ⟨[(20, ⟨5, 4, [7]⟩)], [], []⟩ []).1,
         (sendToPeers (fun _ _ => false) 20 ⟨20, 20 + 1⟩ (ReqData.mk 5 4 [7]).sync_ips
            ⟨[(20, ⟨5, 4, [7]⟩)], [], []⟩ []).2.1) ∧
    processRequests (fun _ _ => false) [(20, ⟨5, 4, [7]⟩), (21, ⟨6, 5, [7]⟩)]
        ⟨[], [], []⟩ []
      = processRequests (fun _ _ => false) [(20, ⟨5, 4, [7]⟩)] ⟨[], [], []⟩ [] ∧
    ((processRequests (fun _ _ => false) [(20, ⟨5, 4, [7]⟩), (21, ⟨6, 5, [7]⟩)]
        ⟨[], [], []⟩ []).1.requests.all (fun r => r.1 != 20)) = true :=
  send_failure_aborts_entire_cycle (fun _ _ => false) 20 ⟨5, 4, [7]⟩
    [(21, ⟨6, 5, [7]⟩)] [] ⟨[], [], []⟩ ⟨[(20, ⟨5, 4, [7]⟩)], [], []⟩ []
    (by decide) (by decide)

/-- C10: if a block request for a height registers successfully with an empty peer
list, the cycle sends no request message to any peer and the height stays registered
as in flight: the resulting pool still holds the entry, it is not removed in that
cycle, and a later insert_block_request for the same height fails until the entry is
removed by some other path. -/
theorem empty_peer_list_keeps_request_in_flight
    (sendOk : Nat → Message → Bool) (height : Nat) (hsh ph : Nat) (d2 : ReqData)
    (p p1 : SyncPool) (trace : List Event)
    (hins : insert_block_request height ⟨hsh, ph, []⟩ p = some p1) :
    processRequests sendOk [(height, ⟨hsh, ph, []⟩)] p trace = (p1, trace) ∧
    (p1.requests.any (fun r => r.1 == height)) = true ∧
    insert_block_request height d2 p1 = none := by
  obtain ⟨hany, hp1⟩ := insert_block_request_some hins
  have hmem : (p1.requests.any (fun r => r.1 == height)) = true := by
    rw [hp1]
    simp [List.any_append]
  refine ⟨?_, hmem, ?_⟩
  · simp only [processRequests, hins, sendToPeers]
  · unfold insert_block_request
    rw [if_pos hmem]

/-- C10 witness: registering height 5 with no candidate peers on an empty pool sends
nothing, keeps height 5 in flight, and blocks a re-proposal of height 5. -/
theorem empty_peer_list_keeps_request_in_flight_witness :
    processRequests (fun _ _ => true) [(5, ⟨1, 2, []⟩)] ⟨[], [], []⟩ []
      = (⟨[(5, ⟨1, 2, []⟩)], [], []⟩, []) ∧
    ((⟨[(5, ⟨1, 2, []⟩)], [], []⟩ : SyncPool).requests.any (fun r => r.1 == 5)) = true ∧
    insert_block_request 5 ⟨9, 9, [3]⟩ ⟨[(5, ⟨1, 2, []⟩)], [], []⟩ = none :=
  empty_peer_list_keeps_request_in_flight (fun _ _ => true) 5 1 2 ⟨9, 9, [3]⟩
    ⟨[], [], []⟩ ⟨[(5, ⟨1, 2, []⟩)], [], []⟩ [] (by decide)

lemma popResponse_length (height : Nat) :
    ∀ (l : List (Nat × Block)) (b : Block) (rest : List (Nat × Block)),
      popResponse height l = some (b, rest) → l.length = rest.length + 1 := by
  intro l
  induction l with
  | nil => intro b rest h; exact absurd h (by simp [popResponse])
  | cons hd tl ih =>
    intro b rest h
    obtain ⟨hh, hb⟩ := hd
    by_cases hhh : (hh == height) = true
    · simp only [popResponse, if_pos hhh, Option.some.injEq, Prod.mk.injEq] at h
      rw [← h.2]
      simp
    · simp only [popResponse, if_neg hhh] at h
      rcases hq : popResponse height tl with _ | ⟨b2, rest2⟩
      · rw [hq] at h
        exact absurd h (by simp)
      · rw [hq] at h
        simp only [Option.some.injEq, Prod.mk.injEq] at h
        rw [← h.2]
        simp [ih b2 rest2 hq]

/-- C3: in a run of advance_with_sync_blocks, every invocation of
advance_to_next_block is made on a block whose height equals the tracked current
height plus one (the expected height), and the tracked ledger height grows by
exactly the number of successful advancement calls, each successful call adding
exactly 1. -/
theorem advance_calls_expected_height_and_increment
    (check advance : Block → Bool) (s : AdvanceState) (hcalls : s.calls = []) :
    ((advance_with_sync_blocks check advance s).calls.all
        (fun c => c.block.height == c.prevHeight + 1)) = true ∧
    (advance_with_sync_blocks check advance s).ledgerHeight
      = s.ledgerHeight
          + ((advance_with_sync_blocks check advance s).calls.countP (fun c => c.ok)) := by
  obtain ⟨new, h1, h2, h3⟩ :=
    advanceLoop_calls_spec check advance (s.pool.responses.length + 1) s
  unfold advance_with_sync_blocks
  rw [h1, hcalls, List.nil_append]
  exact ⟨h2, h3⟩

/-- C3 witness: starting at height 10 with valid queued responses for heights 11 and
12, every advance_to_next_block call is at the expected height and the height grows
by the number of successful calls. -/
theorem advance_calls_expected_height_and_increment_witness :
    ((advance_with_sync_blocks (fun _ => true) (fun _ => true)
        ⟨10, ⟨[], [(11, ⟨11, 1⟩), (12, ⟨12, 2⟩)], []⟩, []⟩).calls.all
        (fun c => c.block.height == c.prevHeight + 1)) = true ∧
    (advance_with_sync_blocks (fun _ => true) (fun _ => true)
        ⟨10, ⟨[], [(11, ⟨11, 1⟩), (12, ⟨12, 2⟩)], []⟩, []⟩).ledgerHeight
      = 10 + ((advance_with_sync_blocks (fun _ => true) (fun _ => true)
          ⟨10, ⟨[], [(11, ⟨11, 1⟩), (12, ⟨12, 2⟩)], []⟩, []⟩).calls.countP (fun c => c.ok)) :=
  advance_calls_expected_height_and_increment (fun _ => true) (fun _ => true)
    ⟨10, ⟨[], [(11, ⟨11, 1⟩), (12, ⟨12, 2⟩)], []⟩, []⟩ rfl

/-- C4: if the queued response popped for the expected height contains a block whose
height differs from that height, advancement halts for the cycle without mutating the
ledger: no advance_to_next_block call is made, no canon locator is inserted, the
ledger height is unchanged, and the mismatched response has been discarded from the
queue rather than re-queued. -/
theorem height_mismatch_aborts_without_mutation
    (check advance : Block → Bool) (s : AdvanceState) (b : Block) (p1 : SyncPool)
    (hpop : remove_block_response (s.ledgerHeight + 1) s.pool = (some b, p1))
    (hne : b.height ≠ s.ledgerHeight + 1) :
    advance_with_sync_blocks check advance s = { s with pool := p1 } ∧
    p1.canonLocators = s.pool.canonLocators ∧
    p1.requests = s.pool.requests ∧
    (s.pool.responses.length = p1.responses.length + 1) := by
  obtain ⟨rest, hpr, hp1⟩ := remove_block_response_some hpop
  have hbne : (b.height != s.ledgerHeight + 1) = true := by
    simpa using hne
  have hlen : s.pool.responses.length = p1.responses.length + 1 := by
    have hl := popResponse_length (s.ledgerHeight + 1) s.pool.responses b rest hpr
    rw [hp1]
    exact hl
  refine ⟨?_, by rw [hp1], by rw [hp1], hlen⟩
  unfold advance_with_sync_blocks
  simp only [advanceLoop, hpop]
  rw [if_pos hbne]

/-- C4 witness: ledger at height 10, queued response for height 11 whose block has
height 12: the pool drops the response, and nothing else changes. -/
theorem height_mismatch_aborts_without_mutation_witness :
    advance_with_sync_blocks (fun _ => true) (fun _ => true)
        ⟨10, ⟨[], [(11, ⟨12, 5⟩)], []⟩, []⟩
      = { (⟨10, ⟨[], [(11, ⟨12, 5⟩)], []⟩, []⟩ : AdvanceState) with
          pool := (⟨[], [], []⟩ : SyncPool) } ∧
    (⟨[], [], []⟩ : SyncPool).canonLocators
      = (⟨[], [(11, ⟨12, 5⟩)], []⟩ : SyncPool).canonLocators ∧
    (⟨[], [], []⟩ : SyncPool).requests = (⟨[], [(11, ⟨12, 5⟩)], []⟩ : SyncPool).requests ∧
    ((⟨[], [(11, ⟨12, 5⟩)], []⟩ : SyncPool).responses.length
      = (⟨[], [], []⟩ : SyncPool).responses.length + 1) :=
  height_mismatch_aborts_without_mutation (fun _ => true) (fun _ => true)
    ⟨10, ⟨[], [(11, ⟨12, 5⟩)], []⟩, []⟩ ⟨12, 5⟩ ⟨[], [], []⟩ (by decide) (by decide)

/-- C7: in development mode with a nonzero configured index, no transaction is ever
constructed, executed, or broadcast: a run of any number of transaction-pool cycles
produces no observable transaction events, whatever the VM and broadcast outcomes
would have been, and the loop keeps running. -/
theorem dev_nonzero_generates_no_transactions (d : Nat) (hd : d ≠ 0)
    (execEnv : Nat → Option Nat) (bEnv : Nat → Nat → Bool) (n : Nat) :
    transactionPoolRun (some d) execEnv bEnv n = ([], true) := by
  induction n with
  | zero => rfl
  | succ n ih =>
    simp only [transactionPoolRun, ih, transactionPoolIteration, if_pos hd, List.nil_append]

/-- C7 witness: with dev index 3, five cycles produce no transaction events. -/
theorem dev_nonzero_generates_no_transactions_witness :
    transactionPoolRun (some 3) (fun k => some k) (fun _ _ => true) 5 = ([], true) :=
  dev_nonzero_generates_no_transactions 3 (by decide) (fun k => some k) (fun _ _ => true) 5

/-- C8: in a cycle of the transaction-pool loop in which the VM execution fails (and
the development-mode gate allows generation), the error is logged, no broadcast is
attempted, and the loop proceeds to the next cycle: the cycle contributes exactly the
execution attempt and the logged error, the continue flag stays true, and a running
loop extends by exactly those events at that cycle. -/
theorem execution_failure_skips_cycle_and_continues
    (dev : Option Nat) (execEnv : Nat → Option Nat) (bEnv : Nat → Nat → Bool) (n : Nat)
    (hdev : dev = none ∨ dev = some 0)
    (hfail : execEnv n = none)
    (hrun : (transactionPoolRun dev execEnv bEnv n).2 = true) :
    transactionPoolIteration dev (execEnv n) (bEnv n)
      = ([TxEvent.execAttempt, TxEvent.execErrorLogged], true) ∧
    transactionPoolRun dev execEnv bEnv (n + 1)
      = ((transactionPoolRun dev execEnv bEnv n).1
          ++ [TxEvent.execAttempt, TxEvent.execErrorLogged], true) := by
  have hiter : transactionPoolIteration dev (execEnv n) (bEnv n)
      = ([TxEvent.execAttempt, TxEvent.execErrorLogged], true) := by
    rcases hdev with h | h <;> subst h <;>
      simp [transactionPoolIteration, transactionPoolBody, hfail]
  refine ⟨hiter, ?_⟩
  rcases hr : transactionPoolRun dev execEnv bEnv n with ⟨evs, c⟩
  rw [hr] at hrun
  have hc : c = true := hrun
  subst hc
  simp only [transactionPoolRun, hr, hiter]

/-- C8 witness: with no development gate and the VM failing at cycle 2, the cycle
logs the error, attempts no broadcast, and the run of three cycles extends the run
of two cycles by exactly those events. -/
theorem execution_failure_skips_cycle_and_continues_witness :
    transactionPoolIteration none none (fun _ => true)
      = ([TxEvent.execAttempt, TxEvent.execErrorLogged], true) ∧
    transactionPoolRun none (fun _ => none) (fun _ _ => true) (2 + 1)
      = ((transactionPoolRun none (fun _ => none) (fun _ _ => true) 2).1
          ++ [TxEvent.execAttempt, TxEvent.execErrorLogged], true) :=
  execution_failure_skips_cycle_and_continues none (fun _ => none) (fun _ _ => true) 2
    (Or.inl rfl) rfl rfl

end SnarkOS
